import Mathlib

/-!
Verification of the MarkMe client-side cache-first data synchronization engine
(`src/services/cache-service.ts`, `src/services/mongodb-service.ts`,
`src/utils/retry-utils.ts`) against its natural-language specification.

The TypeScript code is shallowly embedded: asynchronous operations become pure
functions that take the relevant environment (cached data, the network fetch's
outcome, the storage engine's outcome) as explicit parameters and return the
observable effects (resolved value, callback payloads, cache writes, emitted
channel messages) as explicit data.  JavaScript `Map`s and IndexedDB object
stores are modelled as association lists keyed by `empId`; `undefined` becomes
`Option.none`; a rejected promise becomes `Except.error`.
-/

/-- Child entry of an employee record (`kids` array in `types/attendance.ts`). -/
structure Kid where
  name : String
  ageBracket : String
deriving DecidableEq

/-- Employee record, from `types/attendance.ts`.  The cluster union type is
modelled as a `String`. -/
structure Employee where
  empId : String
  name : String
  cluster : String
  eligibility : String
  eligibleChildrenCount : Nat
  kids : List Kid
deriving DecidableEq

/-- A JavaScript value stored under a key of the `kidNames` object: it can be
`undefined`, `null`, or a string (possibly empty). -/
inductive KidNameVal where
  | undef
  | nullv
  | str (s : String)
deriving DecidableEq

/-- Attendance record, from `types/attendance.ts`.  `markedAt` (a `Date`) is a
numeric timestamp; the optional `kidNames` object is an association list whose
values can be `undefined`, `null` or strings, wrapped in `Option` because the
whole field is optional. -/
structure AttendanceRecord where
  employee : Bool
  spouse : Bool
  kid1 : Bool
  kid2 : Bool
  kid3 : Bool
  markedBy : String
  markedAt : Nat
  kidNames : Option (List (String × KidNameVal))
deriving DecidableEq

/-- Employee together with its optional attendance record
(`EmployeeWithAttendance` in `types/attendance.ts`: the spread `...employee`
plus an `attendanceRecord?` field). -/
structure EmployeeWithAttendance where
  emp : Employee
  attendanceRecord : Option AttendanceRecord
deriving DecidableEq

/-- Lookup in an association list, modelling `Map.get` (returns `undefined`,
i.e. `none`, when the key is absent). -/
def assocGet {α : Type} (m : List (String × α)) (k : String) : Option α :=
  match m with
  | [] => none
  | p :: rest => if p.1 = k then some p.2 else assocGet rest k

/-- A JavaScript `Map<string, AttendanceRecord>` as an association list. -/
abbrev AttMap : Type := List (String × AttendanceRecord)

/-- CacheService.getCachedEmployeesWithAttendance (cache-service.ts lines
310-320), given the results of the two cache reads it joins: the cluster's
cached employees and the cluster's cached attendance map.  Each employee is
spread into a row whose `attendanceRecord` is `attendanceMap.get(empId) ||
undefined`; since attendance records are objects (truthy), the `|| undefined`
is the identity on the lookup result. -/
def getCachedEmployeesWithAttendance (employees : List Employee)
    (attendanceMap : AttMap) : List EmployeeWithAttendance :=
  employees.map (fun employee =>
    { emp := employee, attendanceRecord := assocGet attendanceMap employee.empId })

/-- C6: for every cached entity list E and cached status map M, the joined view
returns exactly one row per entity of E, preserving order, where each row's
`attendanceRecord` equals `M.get(row.empId)` when that key exists and is
`undefined` (`none`) otherwise; the join is a total function, so it never
throws for an id missing from M. -/
theorem C6_join_completeness (E : List Employee) (M : AttMap) :
    (getCachedEmployeesWithAttendance E M).length = E.length ∧
    List.Forall₂
      (fun (e : Employee) (row : EmployeeWithAttendance) =>
        row.emp = e ∧ row.attendanceRecord = assocGet M e.empId)
      E (getCachedEmployeesWithAttendance E M) := by
  constructor
  · simp [getCachedEmployeesWithAttendance]
  · induction E with
    | nil => simp [getCachedEmployeesWithAttendance]
    | cons e rest ih =>
      refine List.Forall₂.cons ?_ ih
      exact ⟨rfl, rfl⟩

/-- The `kidNames` sanitization inside `saveAttendanceRecord`
(mongodb-service.ts lines 567-575): start from an empty object; if
`data.kidNames` is present, copy every entry whose value is neither
`undefined` nor `null`.  Note that empty strings pass this test and are
copied. -/
def cleanKidNames (kidNames : Option (List (String × KidNameVal))) :
    List (String × String) :=
  match kidNames with
  | none => []
  | some l => l.filterMap (fun p =>
      match p.2 with
      | .str s => some (p.1, s)
      | .undef => none
      | .nullv => none)

/-- Truthiness-based default for strings: `s || dflt` in JavaScript. -/
def jsOrString (s : String) (dflt : String) : String :=
  if s = "" then dflt else s

/-- Truthiness-based default for an optional string: `s || dflt` where `s` may
be `undefined`. -/
def jsOptOrString (s : Option String) (dflt : String) : String :=
  match s with
  | none => dflt
  | some v => jsOrString v dflt

/-- The JSON body transmitted by `saveAttendanceRecord` (mongodb-service.ts
lines 577-589). -/
structure SavePayload where
  employee : Bool
  spouse : Bool
  kid1 : Bool
  kid2 : Bool
  kid3 : Bool
  kidNames : List (String × String)
  markedBy : String
  cluster : String
deriving DecidableEq

/-- saveAttendanceRecord (mongodb-service.ts lines 560-595), restricted to the
payload it transmits.  The boolean fields go through `|| false`, which is the
identity on booleans; `markedBy` falls back to `'Kiosk'` when falsy and
`cluster` to `'Unknown'`. -/
def saveAttendanceRecord (data : AttendanceRecord) (cluster : Option String) :
    SavePayload :=
  { employee := data.employee
    spouse := data.spouse
    kid1 := data.kid1
    kid2 := data.kid2
    kid3 := data.kid3
    kidNames := cleanKidNames data.kidNames
    markedBy := jsOrString data.markedBy "Kiosk"
    cluster := jsOptOrString cluster "Unknown" }

/-- A concrete attendance record whose `kidNames` maps `"kid1"` to the empty
string. -/
def emptyNameRecord : AttendanceRecord :=
  { employee := true, spouse := false, kid1 := true, kid2 := false
    kid3 := false, markedBy := "u1", markedAt := 0
    kidNames := some [("kid1", .str "")] }

/-- C9 counterexample: the claim says entries with empty values are dropped
before transmission, but the code's test is `value !== undefined && value !==
null`, which an empty string passes: saving a record whose `kidNames` maps
`"kid1"` to `""` transmits that empty entry. -/
theorem C9_counterexample :
    (saveAttendanceRecord emptyNameRecord (some "Vijayawada")).kidNames
      = [("kid1", "")] := by
  decide

/-- C9 amended: the transmitted `kidNames` mapping contains exactly those
entries of the input mapping whose values are neither `undefined` nor `null` —
entries whose value is a string are kept even when the string is empty, and an
absent input mapping transmits an empty object. -/
theorem C9_kidNames_sanitization (data : AttendanceRecord)
    (cluster : Option String) (k s : String) :
    ((k, s) ∈ (saveAttendanceRecord data cluster).kidNames ↔
      ∃ l, data.kidNames = some l ∧ (k, KidNameVal.str s) ∈ l) ∧
    (data.kidNames = none → (saveAttendanceRecord data cluster).kidNames = []) := by
  constructor
  · constructor
    · intro hmem
      simp only [saveAttendanceRecord, cleanKidNames] at hmem
      match hk : data.kidNames with
      | none => rw [hk] at hmem; simp at hmem
      | some l =>
        rw [hk] at hmem
        refine ⟨l, rfl, ?_⟩
        rcases List.mem_filterMap.mp hmem with ⟨p, hp, hval⟩
        match hv : p.2 with
        | .str t =>
          rw [hv] at hval
          simp only [Option.some.injEq, Prod.mk.injEq] at hval
          have : p = (k, KidNameVal.str s) := by
            rcases hval with ⟨h1, h2⟩
            cases p with
            | mk a b => simp at hv h1 h2; simp [h1, hv, h2]
          exact this ▸ hp
        | .undef => rw [hv] at hval; simp at hval
        | .nullv => rw [hv] at hval; simp at hval
    · rintro ⟨l, hl, hmem⟩
      simp only [saveAttendanceRecord, cleanKidNames, hl]
      exact List.mem_filterMap.mpr ⟨(k, KidNameVal.str s), hmem, rfl⟩
  · intro h
    simp [saveAttendanceRecord, cleanKidNames, h]

/-- C9 witness: instantiating the sanitization theorem on a concrete record
whose `kidNames` holds a real name, an `undefined` entry and a `null` entry:
the real name is transmitted. -/
theorem C9_kidNames_sanitization_witness :
    ("kid1", "Asha") ∈ (saveAttendanceRecord
      { employee := true, spouse := false, kid1 := true, kid2 := false
        kid3 := false, markedBy := "u1", markedAt := 5
        kidNames := some [("kid1", .str "Asha"), ("kid2", .undef), ("kid3", .nullv)] }
      (some "Nellore")).kidNames :=
  ((C9_kidNames_sanitization
      { employee := true, spouse := false, kid1 := true, kid2 := false
        kid3 := false, markedBy := "u1", markedAt := 5
        kidNames := some [("kid1", .str "Asha"), ("kid2", .undef), ("kid3", .nullv)] }
      (some "Nellore") "kid1" "Asha").1.mpr
    ⟨[("kid1", .str "Asha"), ("kid2", .undef), ("kid3", .nullv)], rfl, by decide⟩)

/-- A row of the IndexedDB `attendance` object store: the record fields plus
the cluster tag added by the cache writers.  The tag is `Option` because
`cacheAttendanceRecord` stores the possibly-`undefined` `cluster` argument as
is. -/
structure StoredAttendance where
  record : AttendanceRecord
  clusterTag : Option String
deriving DecidableEq

/-- The IndexedDB `attendance` object store (keyPath `empId`), as an
association list from `empId` to the stored row. -/
abbrev AttStore : Type := List (String × StoredAttendance)

/-- IndexedDB `store.put`: upsert keyed on the store's keyPath — replace the
row when the key is present, append it otherwise. -/
def storePut (store : AttStore) (k : String) (v : StoredAttendance) : AttStore :=
  match store with
  | [] => [(k, v)]
  | p :: rest => if p.1 = k then (k, v) :: rest else p :: storePut rest k v

/-- IndexedDB `store.delete`: remove the row with the given key. -/
def storeDelete (store : AttStore) (k : String) : AttStore :=
  match store with
  | [] => []
  | p :: rest => if p.1 = k then rest else p :: storeDelete rest k

/-- An opaque handle to an opened IndexedDB database; `none` models `this.db
=== null` (open failed or storage unavailable). -/
def DBHandle : Type := Unit

/-- CacheService.cacheAttendanceRecords (cache-service.ts lines 212-230): when
the database is unavailable or the records map is empty, return without
touching the store; otherwise `put` every entry of the map, tagged with
`cluster || 'Unknown'`.  No entry is ever deleted. -/
def cacheAttendanceRecords (db : Option DBHandle) (store : AttStore)
    (records : List (String × AttendanceRecord)) (cluster : Option String) :
    AttStore :=
  if db.isNone ∨ records.length = 0 then store
  else records.foldl
    (fun st p => storePut st p.1
      { record := p.2, clusterTag := some (jsOptOrString cluster "Unknown") })
    store

/-- CacheService.cacheAttendanceRecord (cache-service.ts lines 235-252): when
the database is unavailable, do nothing; otherwise `put` the record under
`empId` (storing the `cluster` argument as is), or `delete` the key when the
record is `null`. -/
def cacheAttendanceRecord (db : Option DBHandle) (store : AttStore)
    (empId : String) (record : Option AttendanceRecord)
    (cluster : Option String) : AttStore :=
  match db with
  | none => store
  | some _ =>
    match record with
    | some r => storePut store empId { record := r, clusterTag := cluster }
    | none => storeDelete store empId

theorem assocGet_storePut_ne (store : AttStore) (k k2 : String)
    (v : StoredAttendance) (h : k2 ≠ k) :
    assocGet (storePut store k v) k2 = assocGet store k2 := by
  induction store with
  | nil =>
    simp only [storePut, assocGet]
    rw [if_neg (Ne.symm h)]
  | cons p rest ih =>
    simp only [storePut]
    by_cases hp : p.1 = k
    · rw [if_pos hp]
      simp only [assocGet]
      rw [if_neg (Ne.symm h), if_neg (fun he : p.1 = k2 => h ((hp.symm.trans he).symm))]
    · rw [if_neg hp]
      simp only [assocGet]
      by_cases hp2 : p.1 = k2
      · rw [if_pos hp2, if_pos hp2]
      · rw [if_neg hp2, if_neg hp2]
        exact ih

theorem assocGet_storePut_self (store : AttStore) (k : String)
    (v : StoredAttendance) :
    assocGet (storePut store k v) k = some v := by
  induction store with
  | nil => simp [storePut, assocGet]
  | cons p rest ih =>
    simp only [storePut]
    by_cases hp : p.1 = k
    · rw [if_pos hp]
      simp [assocGet]
    · rw [if_neg hp]
      simp only [assocGet]
      rw [if_neg hp]
      exact ih

theorem assocGet_eq_none_of_not_mem {α : Type} (m : List (String × α))
    (k : String) (h : k ∉ m.map Prod.fst) : assocGet m k = none := by
  induction m with
  | nil => rfl
  | cons p rest ih =>
    simp only [List.map_cons, List.mem_cons, not_or] at h
    simp only [assocGet]
    rw [if_neg (fun he : p.1 = k => h.1 he.symm)]
    exact ih h.2

theorem assocGet_foldl_storePut (cluster : Option String) (k : String)
    (records : List (String × AttendanceRecord)) :
    ∀ store : AttStore, k ∉ records.map Prod.fst →
      assocGet (records.foldl
        (fun st p => storePut st p.1
          { record := p.2, clusterTag := some (jsOptOrString cluster "Unknown") })
        store) k = assocGet store k := by
  induction records with
  | nil => intro store _; rfl
  | cons p rest ih =>
    intro store hk
    simp only [List.map_cons, List.mem_cons, not_or] at hk
    simp only [List.foldl_cons]
    rw [ih _ hk.2, assocGet_storePut_ne store p.1 k _ hk.1]

theorem assocGet_foldl_storePut_isSome (cluster : Option String) (k : String)
    (records : List (String × AttendanceRecord)) :
    ∀ store : AttStore, (assocGet store k).isSome →
      (assocGet (records.foldl
        (fun st p => storePut st p.1
          { record := p.2, clusterTag := some (jsOptOrString cluster "Unknown") })
        store) k).isSome := by
  induction records with
  | nil => intro store h; exact h
  | cons p rest ih =>
    intro store h
    simp only [List.foldl_cons]
    refine ih _ ?_
    by_cases hk : k = p.1
    · subst hk
      rw [assocGet_storePut_self]
      rfl
    · rw [assocGet_storePut_ne _ _ _ _ hk]
      exact h

theorem assocGet_storeDelete (store : AttStore) (k : String)
    (hnd : (store.map Prod.fst).Nodup) :
    assocGet (storeDelete store k) k = none := by
  induction store with
  | nil => rfl
  | cons p rest ih =>
    simp only [List.map_cons, List.nodup_cons] at hnd
    simp only [storeDelete]
    by_cases hp : p.1 = k
    · rw [if_pos hp]
      exact assocGet_eq_none_of_not_mem rest k (hp ▸ hnd.1)
    · rw [if_neg hp]
      simp only [assocGet]
      rw [if_neg hp]
      exact ih hnd.2

/-- C10: the bulk status cache write only upserts — every attendance record
cached under an id that is not a key of the written map is left unchanged, an
empty map leaves the store entirely untouched, no cached record is ever
removed by it, and deletion happens only through `cacheAttendanceRecord(id,
null)`, which removes exactly that id's row. -/
theorem C10_bulk_write_upserts_only (db : Option DBHandle) (d : DBHandle)
    (store : AttStore) (records : List (String × AttendanceRecord))
    (cluster cluster2 : Option String) (k : String) :
    (k ∉ records.map Prod.fst →
      assocGet (cacheAttendanceRecords db store records cluster) k
        = assocGet store k) ∧
    (records = [] → cacheAttendanceRecords db store records cluster = store) ∧
    ((assocGet store k).isSome →
      (assocGet (cacheAttendanceRecords db store records cluster) k).isSome) ∧
    ((store.map Prod.fst).Nodup →
      assocGet (cacheAttendanceRecord (some d) store k none cluster2) k
        = none) := by
  refine ⟨?_, ?_, ?_, ?_⟩
  · intro hk
    unfold cacheAttendanceRecords
    by_cases hguard : db.isNone ∨ records.length = 0
    · rw [if_pos hguard]
    · rw [if_neg hguard]
      exact assocGet_foldl_storePut cluster k records store hk
  · intro h
    simp [cacheAttendanceRecords, h]
  · intro h
    unfold cacheAttendanceRecords
    by_cases hguard : db.isNone ∨ records.length = 0
    · rw [if_pos hguard]; exact h
    · rw [if_neg hguard]
      exact assocGet_foldl_storePut_isSome cluster k records store h
  · intro hnd
    simp only [cacheAttendanceRecord]
    exact assocGet_storeDelete store k hnd

/-- C10 witness: a store holding records for ids `"A"` and `"B"`; writing a
one-entry map for `"B"` leaves `"A"` untouched, the empty map changes
nothing, and a `null` write for `"A"` deletes it. -/
theorem C10_bulk_write_upserts_only_witness :
    let r1 : AttendanceRecord :=
      { employee := true, spouse := false, kid1 := false, kid2 := false
        kid3 := false, markedBy := "u1", markedAt := 1, kidNames := none }
    let r2 : AttendanceRecord :=
      { employee := false, spouse := true, kid1 := false, kid2 := false
        kid3 := false, markedBy := "u2", markedAt := 2, kidNames := none }
    let st : AttStore :=
      [("A", { record := r1, clusterTag := some "Vijayawada" }),
       ("B", { record := r2, clusterTag := some "Vijayawada" })]
    ("A" ∉ ([("B", r2)] : List (String × AttendanceRecord)).map Prod.fst →
      assocGet (cacheAttendanceRecords (some ()) st [("B", r2)] (some "Vijayawada")) "A"
        = assocGet st "A") ∧
    (([] : List (String × AttendanceRecord)) = [] →
      cacheAttendanceRecords (some ()) st [] (some "Vijayawada") = st) ∧
    ((assocGet st "A").isSome →
      (assocGet (cacheAttendanceRecords (some ()) st [("B", r2)] (some "Vijayawada")) "A").isSome) ∧
    ((st.map Prod.fst).Nodup →
      assocGet (cacheAttendanceRecord (some ()) st "A" none none) "A" = none) := by
  intro r1 r2 st
  exact ⟨(C10_bulk_write_upserts_only (some ()) () st [("B", r2)]
      (some "Vijayawada") none "A").1,
    (C10_bulk_write_upserts_only (some ()) () st []
      (some "Vijayawada") none "A").2.1,
    (C10_bulk_write_upserts_only (some ()) () st [("B", r2)]
      (some "Vijayawada") none "A").2.2.1,
    (C10_bulk_write_upserts_only (some ()) () st [("B", r2)]
      (some "Vijayawada") none "A").2.2.2⟩

/-- Outcome of a raw storage-engine or transport operation: success with a
value, or an engine-level error (the `onerror` path). -/
inductive EngineResult (α : Type) where
  | ok (a : α)
  | err
deriving DecidableEq

/-- The memoized-initialization state of CacheService: `db` is `this.db`
(`none` until a successful open, or forever when the open failed or storage is
unavailable) and `initStarted` records whether `this.initPromise` is non-null. -/
structure CacheInitState where
  db : Option DBHandle
  initStarted : Bool

/-- CacheService.init (cache-service.ts lines 37-82): if the database is
already open, or an initialization is already in flight or finished, return
without touching the engine; otherwise open the database once.  The open
request's `onerror` handler resolves instead of rejecting ("continue without
cache"), so a failed open leaves `db = null` and the promise still fulfils.
The returned boolean records whether this call invoked the engine's open. -/
def CacheService.init (s : CacheInitState) (openResult : EngineResult DBHandle) :
    CacheInitState × Bool :=
  match s.db with
  | some _ => (s, false)
  | none =>
    if s.initStarted then (s, false)
    else
      match openResult with
      | .ok h => ({ db := some h, initStarted := true }, true)
      | .err => ({ db := none, initStarted := true }, true)

/-- CacheService.getCachedEmployeesByCluster (cache-service.ts lines 171-187):
await init, return `[]` when the database is unavailable, otherwise read the
cluster index; the read request's `onerror` handler resolves `[]` instead of
rejecting.  The `Except` result type records that the promise could in
principle reject — the definition shows it never does. -/
def CacheService.getCachedEmployeesByCluster (s : CacheInitState)
    (cluster : String) (openResult : EngineResult DBHandle)
    (readResult : EngineResult (List Employee)) :
    CacheInitState × Except String (List Employee) :=
  let s2 := (CacheService.init s openResult).1
  match s2.db with
  | none => (s2, .ok [])
  | some _ =>
    match readResult with
    | .ok emps => (s2, .ok emps)
    | .err => (s2, .ok [])

/-- CacheService.getAllCachedEmployees (cache-service.ts lines 192-207): same
shape as the by-cluster read but over the whole employees store. -/
def CacheService.getAllCachedEmployees (s : CacheInitState)
    (openResult : EngineResult DBHandle)
    (readResult : EngineResult (List Employee)) :
    CacheInitState × Except String (List Employee) :=
  let s2 := (CacheService.init s openResult).1
  match s2.db with
  | none => (s2, .ok [])
  | some _ =>
    match readResult with
    | .ok emps => (s2, .ok emps)
    | .err => (s2, .ok [])

/-- C7: the cache read operations never throw — whatever the init and engine
outcomes, they fulfil with some list, and they fulfil with `[]` whenever the
database failed to open or the storage engine reports a read error; the init
is memoized, so a second `init` call never re-opens the engine and leaves the
state unchanged; and a storage error during init is swallowed: the init
settles (with `db = none`) instead of rejecting, after which reads fulfil
with `[]`. -/
theorem C7_cache_reads_never_throw (s : CacheInitState) (cluster : String)
    (o o2 : EngineResult DBHandle) (rE rA : EngineResult (List Employee)) :
    (∃ l, (CacheService.getCachedEmployeesByCluster s cluster o rE).2 = .ok l) ∧
    (∃ l, (CacheService.getAllCachedEmployees s o rA).2 = .ok l) ∧
    ((CacheService.init s o).1.db = none →
      (CacheService.getCachedEmployeesByCluster s cluster o rE).2 = .ok [] ∧
      (CacheService.getAllCachedEmployees s o rA).2 = .ok []) ∧
    (rE = .err →
      (CacheService.getCachedEmployeesByCluster s cluster o rE).2 = .ok []) ∧
    (rA = .err →
      (CacheService.getAllCachedEmployees s o rA).2 = .ok []) ∧
    (CacheService.init (CacheService.init s o).1 o2 = ((CacheService.init s o).1, false)) ∧
    (CacheService.init ⟨none, false⟩ .err = (⟨none, true⟩, true)) := by
  refine ⟨?_, ?_, ?_, ?_, ?_, ?_, rfl⟩
  · unfold CacheService.getCachedEmployeesByCluster
    cases h : (CacheService.init s o).1.db with
    | none => exact ⟨[], by simp [h]⟩
    | some d =>
      cases rE with
      | ok emps => exact ⟨emps, by simp [h]⟩
      | err => exact ⟨[], by simp [h]⟩
  · unfold CacheService.getAllCachedEmployees
    cases h : (CacheService.init s o).1.db with
    | none => exact ⟨[], by simp [h]⟩
    | some d =>
      cases rA with
      | ok emps => exact ⟨emps, by simp [h]⟩
      | err => exact ⟨[], by simp [h]⟩
  · intro h
    constructor
    · unfold CacheService.getCachedEmployeesByCluster
      simp [h]
    · unfold CacheService.getAllCachedEmployees
      simp [h]
  · intro h
    subst h
    unfold CacheService.getCachedEmployeesByCluster
    cases hdb : (CacheService.init s o).1.db <;> simp [hdb]
  · intro h
    subst h
    unfold CacheService.getAllCachedEmployees
    cases hdb : (CacheService.init s o).1.db <;> simp [hdb]
  · unfold CacheService.init
    cases hdb : s.db with
    | some d => simp [hdb]
    | none =>
      cases hi : s.initStarted with
      | true => simp [hdb, hi]
      | false =>
        cases o with
        | ok h => simp [hdb, hi]
        | err => simp [hdb, hi]

/-- C7 witness: a fresh cache whose engine open fails and whose reads error
still fulfils every read with the empty list, and the second init call does
not touch the engine. -/
theorem C7_cache_reads_never_throw_witness :
    (∃ l, (CacheService.getCachedEmployeesByCluster ⟨none, false⟩ "Vijayawada" .err .err).2 = .ok l) ∧
    ((CacheService.init ⟨none, false⟩ .err).1.db = none →
      (CacheService.getCachedEmployeesByCluster ⟨none, false⟩ "Vijayawada" .err .err).2 = .ok [] ∧
      (CacheService.getAllCachedEmployees ⟨none, false⟩ .err .err).2 = .ok []) ∧
    ((EngineResult.err : EngineResult (List Employee)) = .err →
      (CacheService.getCachedEmployeesByCluster ⟨none, false⟩ "Vijayawada" .err .err).2 = .ok []) ∧
    (CacheService.init (CacheService.init ⟨none, false⟩ .err).1 .err
      = ((CacheService.init ⟨none, false⟩ .err).1, false)) :=
  ⟨(C7_cache_reads_never_throw ⟨none, false⟩ "Vijayawada" .err .err .err .err).1,
   (C7_cache_reads_never_throw ⟨none, false⟩ "Vijayawada" .err .err .err .err).2.2.1,
   (C7_cache_reads_never_throw ⟨none, false⟩ "Vijayawada" .err .err .err .err).2.2.2.1,
   (C7_cache_reads_never_throw ⟨none, false⟩ "Vijayawada" .err .err .err .err).2.2.2.2.2.1⟩

/-- FirestoreService.getAttendanceRecordsForEmployees splits its id list into
consecutive slices of `BATCH_SIZE = 30` (`empIds.slice(i, i + 30)` for `i = 0,
30, 60, ...`), one remote `in`-query per slice (mongodb-service.ts lines
1172-1210). -/
def chunkEmpIds (empIds : List String) : List (List String) :=
  match empIds with
  | [] => []
  | x :: xs => (x :: xs).take 30 :: chunkEmpIds ((x :: xs).drop 30)
termination_by empIds.length
decreasing_by
  simp only [List.length_drop, List.length_cons]
  omega

/-- The list of batched remote calls FirestoreService.getAttendanceRecordsForEmployees
issues: none when the id list is empty (early return), otherwise the 30-sized
chunks of the id list. -/
def FirestoreService.getAttendanceBatchCalls (empIds : List String) :
    List (List String) :=
  if empIds.length = 0 then [] else chunkEmpIds empIds

/-- The list of batched remote calls fetchAttendanceByEmployeeIds
(mongodb-service.ts lines 437-479) issues: when not forcing a refresh, every
id is looked up in the cache and, if all are present and at least one id was
requested, the cached map is returned with no remote call; otherwise a single
`POST /attendance/batch` call is made carrying the whole id list, unchunked. -/
def fetchAttendanceByEmployeeIds.batchCalls (empIds : List String)
    (cache : AttMap) (forceRefresh : Bool) : List (List String) :=
  if forceRefresh = false ∧
      empIds.all (fun id => (assocGet cache id).isSome) = true ∧
      empIds ≠ [] then
    []
  else
    [empIds]

theorem chunkEmpIds_length (n : Nat) :
    ∀ l : List String, l.length ≤ n →
      (chunkEmpIds l).length = (l.length + 29) / 30 := by
  induction n with
  | zero =>
    intro l hl
    have : l = [] := List.eq_nil_of_length_eq_zero (Nat.le_zero.mp hl)
    subst this
    simp [chunkEmpIds]
  | succ n ih =>
    intro l hl
    match l with
    | [] => simp [chunkEmpIds]
    | x :: xs =>
      rw [chunkEmpIds]
      simp only [List.length_cons]
      rw [ih ((x :: xs).drop 30)
        (by simp only [List.length_drop, List.length_cons] at hl ⊢; omega)]
      simp only [List.length_drop, List.length_cons]
      omega

theorem chunkEmpIds_sizes (n : Nat) :
    ∀ l : List String, l.length ≤ n →
      List.Forall (fun b : List String => b.length ≤ 30) (chunkEmpIds l) := by
  induction n with
  | zero =>
    intro l hl
    have : l = [] := List.eq_nil_of_length_eq_zero (Nat.le_zero.mp hl)
    subst this
    simp [chunkEmpIds]
  | succ n ih =>
    intro l hl
    match l with
    | [] => simp [chunkEmpIds]
    | x :: xs =>
      rw [chunkEmpIds, List.forall_cons]
      refine ⟨?_, ih ((x :: xs).drop 30)
        (by simp only [List.length_drop, List.length_cons] at hl ⊢; omega)⟩
      simp only [List.length_take]
      omega

theorem chunkEmpIds_flatten (n : Nat) :
    ∀ l : List String, l.length ≤ n → (chunkEmpIds l).flatten = l := by
  induction n with
  | zero =>
    intro l hl
    have : l = [] := List.eq_nil_of_length_eq_zero (Nat.le_zero.mp hl)
    subst this
    simp [chunkEmpIds]
  | succ n ih =>
    intro l hl
    match l with
    | [] => simp [chunkEmpIds]
    | x :: xs =>
      rw [chunkEmpIds]
      simp only [List.flatten_cons]
      rw [ih ((x :: xs).drop 30)
        (by simp only [List.length_drop, List.length_cons] at hl ⊢; omega)]
      exact List.take_append_drop 30 (x :: xs)

/-- C3 counterexample: the claim says fetching status records for 65 ids
issues exactly `ceil(65/30) = 3` batched calls each carrying at most 30 ids,
but fetchAttendanceByEmployeeIds issues a single `POST /attendance/batch`
call carrying all 65 ids. -/
theorem C3_counterexample :
    fetchAttendanceByEmployeeIds.batchCalls (List.replicate 65 "E001") [] true
      = [List.replicate 65 "E001"] ∧
    (List.replicate 65 "E001").length = 65 ∧
    (fetchAttendanceByEmployeeIds.batchCalls (List.replicate 65 "E001") [] true).length = 1 ∧
    ((65 : Nat) + 29) / 30 = 3 := by
  refine ⟨rfl, by decide, rfl, by decide⟩

/-- C3 amended: FirestoreService.getAttendanceRecordsForEmployees issues
exactly `ceil(n/30)` batched remote calls, each carrying at most 30 ids and
together carrying exactly the requested ids in order (so 65 ids yield 3 calls
of 30+30+5); fetchAttendanceByEmployeeIds instead issues at most one batched
call carrying the whole id list at once.  Neither ever issues one remote call
per id. -/
theorem C3_batch_chunking (empIds : List String) (cache : AttMap)
    (forceRefresh : Bool) :
    (FirestoreService.getAttendanceBatchCalls empIds).length
      = (empIds.length + 29) / 30 ∧
    List.Forall (fun b : List String => b.length ≤ 30)
      (FirestoreService.getAttendanceBatchCalls empIds) ∧
    (FirestoreService.getAttendanceBatchCalls empIds).flatten = empIds ∧
    (fetchAttendanceByEmployeeIds.batchCalls empIds cache forceRefresh).length ≤ 1 := by
  refine ⟨?_, ?_, ?_, ?_⟩
  · unfold FirestoreService.getAttendanceBatchCalls
    by_cases h : empIds.length = 0
    · rw [if_pos h, h]
      decide
    · rw [if_neg h]
      exact chunkEmpIds_length empIds.length empIds (Nat.le_refl _)
  · unfold FirestoreService.getAttendanceBatchCalls
    by_cases h : empIds.length = 0
    · rw [if_pos h]; exact trivial
    · rw [if_neg h]
      exact chunkEmpIds_sizes empIds.length empIds (Nat.le_refl _)
  · unfold FirestoreService.getAttendanceBatchCalls
    by_cases h : empIds.length = 0
    · rw [if_pos h]
      simp [List.eq_nil_of_length_eq_zero h]
    · rw [if_neg h]
      exact chunkEmpIds_flatten empIds.length empIds (Nat.le_refl _)
  · unfold fetchAttendanceByEmployeeIds.batchCalls
    by_cases h : forceRefresh = false ∧
        empIds.all (fun id => (assocGet cache id).isSome) = true ∧ empIds ≠ []
    · rw [if_pos h]; exact Nat.zero_le 1
    · rw [if_neg h]; exact Nat.le_refl 1

/-- The fields of a thrown JavaScript error that the retry logic inspects:
`code` and `status` may each be `undefined`; `message` carries the text of a
plain `Error`. -/
structure JSError where
  code : Option String
  status : Option Nat
  message : Option String
deriving DecidableEq

/-- JavaScript comparison `status >= lo && status < hi` where `status` may be
`undefined`; comparisons against `undefined` are false. -/
def statusInRange (s : Option Nat) (lo hi : Nat) : Bool :=
  match s with
  | none => false
  | some v => decide (lo ≤ v) && decide (v < hi)

/-- defaultRetryCondition (retry-utils.ts lines 80-108): retry on the
transient codes and HTTP 5xx; do not retry on permission codes and HTTP 4xx;
default to retrying for unknown errors.  The tests are performed in the
source's order. -/
def defaultRetryCondition (e : JSError) : Bool :=
  if e.code = some "unavailable" ∨ e.code = some "deadline-exceeded" then true
  else if e.code = some "internal" ∨ e.code = some "unknown" then true
  else if statusInRange e.status 500 600 then true
  else if e.code = some "permission-denied" ∨ e.code = some "unauthenticated" then false
  else if statusInRange e.status 400 500 then false
  else true

/-- The jittered backoff delay slept before retrying after a failed attempt
(retry-utils.ts lines 55-62): `min(baseDelay * backoffFactor^(attempt-1),
maxDelay) + Math.random()*1000`, with the random jitter supplied as an
environment function of the attempt number. -/
def delayFor (baseDelay maxDelay backoffFactor : Nat) (jitter : Nat → Nat)
    (attempt : Nat) : Nat :=
  min (baseDelay * backoffFactor ^ (attempt - 1)) maxDelay + jitter attempt

/-- The attempt loop of retryWithBackoff (retry-utils.ts lines 44-72): run
`fn attempt`; on success return; on failure throw `RetryError(attempt,
lastError)` when this was the last attempt or the retry condition rejects the
error, otherwise sleep the backoff delay and try again.  The fuel argument is
the number of loop iterations left (`maxAttempts - attempt + 1`); the fuel-0
case is the source's unreachable post-loop throw.  The result pairs the
outcome (`Except` error = thrown `RetryError` with its attempt count and last
error) with the list of delays slept. -/
def retryWithBackoff.aux {α : Type} (fn : Nat → Except JSError α)
    (retryCondition : JSError → Bool) (baseDelay maxDelay backoffFactor maxAttempts : Nat)
    (jitter : Nat → Nat) : Nat → Nat → Except (Nat × JSError) α × List Nat
  | _, 0 => (.error (maxAttempts, ⟨none, none, none⟩), [])
  | attempt, fuel + 1 =>
    match fn attempt with
    | .ok a => (.ok a, [])
    | .error e =>
      if attempt = maxAttempts ∨ retryCondition e = false then
        (.error (attempt, e), [])
      else
        let rest := retryWithBackoff.aux fn retryCondition baseDelay maxDelay
          backoffFactor maxAttempts jitter (attempt + 1) fuel
        (rest.1, delayFor baseDelay maxDelay backoffFactor jitter attempt :: rest.2)

/-- retryWithBackoff (retry-utils.ts lines 29-75): start the loop at attempt
1 with `maxAttempts` iterations available. -/
def retryWithBackoff {α : Type} (fn : Nat → Except JSError α)
    (retryCondition : JSError → Bool) (baseDelay maxDelay backoffFactor maxAttempts : Nat)
    (jitter : Nat → Nat) : Except (Nat × JSError) α × List Nat :=
  retryWithBackoff.aux fn retryCondition baseDelay maxDelay backoffFactor
    maxAttempts jitter 1 maxAttempts

/-- A raw HTTP response as `fetchAPI` sees it: the `ok` flag, the numeric
status, the parsed error body's `error` field, and the parsed success body. -/
structure HttpResponse (α : Type) where
  ok : Bool
  status : Nat
  errorField : Option String
  body : α

/-- fetchAPI (mongodb-service.ts lines 201-222): perform a single `fetch`; on
a non-ok response throw `new Error(error.error || 'HTTP <status>')` (a plain
`Error`, with no `code` or `status` field); on a network-level rejection log
and rethrow.  The second component is the number of transport requests
performed — always exactly one, as the function contains no retry loop. -/
def fetchAPI {α : Type} (response : Except JSError (HttpResponse α)) :
    Except JSError α × Nat :=
  match response with
  | .error e => (.error e, 1)
  | .ok r =>
    if r.ok then (.ok r.body, 1)
    else (.error ⟨none, none,
      some (jsOptOrString r.errorField ("HTTP " ++ toString r.status))⟩, 1)

theorem retryAux_persistent {α : Type} (fn : Nat → Except JSError α)
    (cond : JSError → Bool) (base maxD factor m : Nat) (jitter : Nat → Nat)
    (e : JSError) (hfn : ∀ i, fn i = .error e) (hc : cond e = true) :
    ∀ fuel attempt, 1 ≤ attempt → attempt ≤ m → attempt + fuel = m + 1 →
      retryWithBackoff.aux fn cond base maxD factor m jitter attempt fuel
        = (.error (m, e),
           (List.range (m - attempt)).map
             (fun k => delayFor base maxD factor jitter (attempt + k))) := by
  intro fuel
  induction fuel with
  | zero => intro attempt _ h2 h3; omega
  | succ fuel ih =>
    intro attempt h1 h2 h3
    simp only [retryWithBackoff.aux, hfn attempt]
    by_cases hend : attempt = m
    · subst hend
      rw [if_pos (Or.inl rfl)]
      simp
    · rw [if_neg (by simp [hend, hc])]
      rw [ih (attempt + 1) (by omega) (by omega) (by omega)]
      simp only
      have hr : m - attempt = (m - attempt - 1) + 1 := by omega
      refine Prod.ext rfl ?_
      simp only
      rw [hr, List.range_succ_eq_map, List.map_cons, List.map_map]
      have h0 : attempt + 0 = attempt := by omega
      rw [h0]
      refine congrArg (List.cons _) ?_
      apply List.map_congr_left
      intro k hk
      simp only [Function.comp]
      have : attempt + 1 + k = attempt + (k + 1) := by omega
      rw [this]

theorem retry_nonretryable {α : Type} (fn : Nat → Except JSError α)
    (cond : JSError → Bool) (base maxD factor m : Nat) (jitter : Nat → Nat)
    (e : JSError) (hm : 1 ≤ m) (hfn1 : fn 1 = .error e) (hc : cond e = false) :
    retryWithBackoff fn cond base maxD factor m jitter = (.error (1, e), []) := by
  unfold retryWithBackoff
  match m, hm with
  | m0 + 1, _ =>
    simp only [retryWithBackoff.aux, hfn1]
    rw [if_pos (Or.inr hc)]

/-- C4 counterexample: the claim says every remote gateway operation retries
transient failures, but fetchAPI — the transport wrapper through which every
MongoDB gateway operation goes — performs exactly one transport request and
surfaces the error immediately: a 503 response (transient by the repo's own
defaultRetryCondition) reaches the caller after a single attempt, with no
retry and no backoff delay. -/
theorem C4_counterexample :
    (fetchAPI (α := List Employee) (.ok ⟨false, 503, none, []⟩)).2 = 1 ∧
    (fetchAPI (α := List Employee) (.ok ⟨false, 503, none, []⟩)).1
      = .error ⟨none, none, some "HTTP 503"⟩ ∧
    defaultRetryCondition ⟨none, some 503, none⟩ = true := by
  refine ⟨rfl, rfl, by decide⟩

/-- C4 amended: retryWithBackoff provides exactly the claimed policy — a
persistently transient failure is retried up to the bounded `maxAttempts`
with delays `min(base * factor^(attempt-1), maxDelay) + jitter` (exponential,
capped, jittered, and monotone before the jitter when `factor ≥ 1`), the
error surfacing only after the attempts are exhausted, while an error the
retry condition rejects (permission codes, HTTP 4xx) fails immediately after
one attempt with no delay; the `defaultRetryCondition` classifies 5xx and the
transient codes as retryable and permission codes and 4xx as not.  However,
the MongoDB gateway's own `fetchAPI` performs no retry at all: every
operation through it makes exactly one transport request whatever the
failure. -/
theorem C4_retry_policy {α : Type} (fn : Nat → Except JSError α)
    (e : JSError) (base maxD factor m : Nat) (jitter : Nat → Nat)
    (response : Except JSError (HttpResponse α)) :
    (1 ≤ m → (∀ i, fn i = .error e) → defaultRetryCondition e = true →
      retryWithBackoff fn defaultRetryCondition base maxD factor m jitter
        = (.error (m, e),
           (List.range (m - 1)).map
             (fun k => delayFor base maxD factor jitter (1 + k)))) ∧
    (1 ≤ m → fn 1 = .error e → defaultRetryCondition e = false →
      retryWithBackoff fn defaultRetryCondition base maxD factor m jitter
        = (.error (1, e), [])) ∧
    (∀ st, 500 ≤ st → st < 600 →
      defaultRetryCondition ⟨none, some st, none⟩ = true) ∧
    (∀ st, 400 ≤ st → st < 500 →
      defaultRetryCondition ⟨none, some st, none⟩ = false) ∧
    (defaultRetryCondition ⟨some "permission-denied", none, none⟩ = false ∧
     defaultRetryCondition ⟨some "unauthenticated", none, none⟩ = false ∧
     defaultRetryCondition ⟨some "unavailable", none, none⟩ = true ∧
     defaultRetryCondition ⟨some "deadline-exceeded", none, none⟩ = true) ∧
    (∀ a, delayFor base maxD factor jitter a ≤ maxD + jitter a) ∧
    (1 ≤ factor → ∀ a1 a2, a1 ≤ a2 →
      min (base * factor ^ (a1 - 1)) maxD ≤ min (base * factor ^ (a2 - 1)) maxD) ∧
    ((fetchAPI response).2 = 1) := by
  refine ⟨?_, ?_, ?_, ?_, ⟨by decide, by decide, by decide, by decide⟩, ?_, ?_, ?_⟩
  · intro hm hfn hc
    unfold retryWithBackoff
    exact retryAux_persistent fn defaultRetryCondition base maxD factor m jitter
      e hfn hc m 1 (Nat.le_refl 1) hm (by omega)
  · intro hm hfn1 hc
    exact retry_nonretryable fn defaultRetryCondition base maxD factor m jitter
      e hm hfn1 hc
  · intro st h1 h2
    simp [defaultRetryCondition, statusInRange, h1, h2]
  · intro st h1 h2
    have h3 : ¬(500 ≤ st) := by omega
    simp [defaultRetryCondition, statusInRange, h1, h2, h3]
  · intro a
    exact Nat.add_le_add_right (min_le_right _ _) _
  · intro hf a1 a2 hle
    refine min_le_min ?_ (Nat.le_refl maxD)
    exact Nat.mul_le_mul_left base (Nat.pow_le_pow_right hf (by omega))
  · match response with
    | .error e2 => rfl
    | .ok r =>
      unfold fetchAPI
      by_cases hok : r.ok <;> simp [hok]

/-- C4 witness: three persistently failing attempts against a 503 error with
the repository's default parameters (3 attempts, base 1000ms, cap 10000ms,
factor 2) surface a RetryError after attempt 3 with two backoff delays, and a
permission-denied error fails on the first attempt with no delay. -/
theorem C4_retry_policy_witness :
    (retryWithBackoff (α := List Employee) (fun _ => .error ⟨none, some 503, none⟩)
        defaultRetryCondition 1000 10000 2 3 (fun _ => 7)
      = (.error (3, ⟨none, some 503, none⟩),
         (List.range 2).map (fun k => delayFor 1000 10000 2 (fun _ => 7) (1 + k)))) ∧
    (retryWithBackoff (α := List Employee)
        (fun _ => .error ⟨some "permission-denied", none, none⟩)
        defaultRetryCondition 1000 10000 2 3 (fun _ => 7)
      = (.error (1, ⟨some "permission-denied", none, none⟩), [])) ∧
    defaultRetryCondition ⟨none, some 503, none⟩ = true :=
  ⟨(C4_retry_policy (fun _ => .error ⟨none, some 503, none⟩) ⟨none, some 503, none⟩
      1000 10000 2 3 (fun _ => 7) (.error ⟨none, none, none⟩)).1
    (by decide) (fun _ => rfl) (by decide),
   (C4_retry_policy (fun _ => .error ⟨some "permission-denied", none, none⟩)
      ⟨some "permission-denied", none, none⟩
      1000 10000 2 3 (fun _ => 7) (.error ⟨none, none, none⟩)).2.1
    (by decide) rfl (by decide),
   by decide⟩

/-- Insertion into an association list, modelling `Map.set`: overwrite in
place when the key exists, append otherwise (JavaScript Maps preserve
insertion order). -/
def assocSet {α : Type} (m : List (String × α)) (k : String) (v : α) :
    List (String × α) :=
  match m with
  | [] => [(k, v)]
  | p :: rest => if p.1 = k then (k, v) :: rest else p :: assocSet rest k v

/-- The per-cluster grouping fetchAllEmployees performs before caching
(mongodb-service.ts lines 257-262): `clusterGroups.get(emp.cluster) || []`,
push, `clusterGroups.set(...)`. -/
def groupByCluster (employees : List Employee) : List (String × List Employee) :=
  employees.foldl
    (fun groups emp =>
      let list := (assocGet groups emp.cluster).getD []
      assocSet groups emp.cluster (list ++ [emp]))
    []

/-- The observable outcome of one stale-while-revalidate coordinator call:
the promise's settlement, the payload the `onFresh` callback is invoked with
(`none` when it is never invoked), and the data written back to the cache
(`none` when nothing is written). -/
structure SWRResult (α : Type) where
  result : Except JSError α
  onFreshPayload : Option α
  cacheWritten : Option α

/-- fetchEmployeesByCluster (mongodb-service.ts lines 301-344).  The cache
read's result and the network fetch's outcome are environment parameters.
The inner `fetchFresh` caches the employees, invokes `onFresh` and resolves
with them on success, and rethrows on failure.  With non-empty cached data
and no forced refresh, `fetchFresh` runs in the background with its rejection
swallowed by `.catch` and the call resolves with the cached data; otherwise
the call's outcome is `fetchFresh`'s own. -/
def fetchEmployeesByCluster (cached : List Employee)
    (net : Except JSError (List Employee)) (forceRefresh : Bool) :
    SWRResult (List Employee) :=
  let fetchFresh : SWRResult (List Employee) :=
    match net with
    | .ok employees =>
      { result := .ok employees, onFreshPayload := some employees
        cacheWritten := some employees }
    | .error e =>
      { result := .error e, onFreshPayload := none, cacheWritten := none }
  if 0 < cached.length ∧ forceRefresh = false then
    { fetchFresh with result := .ok cached }
  else
    fetchFresh

/-- The outcome of fetchAllEmployees, whose cache write is the per-cluster
grouping of the fetched list rather than a single write. -/
structure SWRAllEmployeesResult where
  result : Except JSError (List Employee)
  onFreshPayload : Option (List Employee)
  cacheWrites : List (String × List Employee)

/-- fetchAllEmployees (mongodb-service.ts lines 234-296).  `hasAnyCachedData`
followed by `getAllCachedEmployees` reduces to reading the cached list, so
the model takes it directly; `fetchFresh` groups the fetched employees by
cluster and caches each group. -/
def fetchAllEmployees (cached : List Employee)
    (net : Except JSError (List Employee)) (forceRefresh : Bool) :
    SWRAllEmployeesResult :=
  let fetchFresh : SWRAllEmployeesResult :=
    match net with
    | .ok employees =>
      { result := .ok employees, onFreshPayload := some employees
        cacheWrites := groupByCluster employees }
    | .error e =>
      { result := .error e, onFreshPayload := none, cacheWrites := [] }
  if 0 < cached.length ∧ forceRefresh = false then
    { fetchFresh with result := .ok cached }
  else
    fetchFresh

/-- One element of the `/attendance/...` endpoints' array responses:
`AttendanceRecord & { empId }` (mongodb-service.ts lines 362-364), split into
the id and the record the destructuring recovers. -/
structure AttendanceAPIRecord where
  empId : String
  record : AttendanceRecord
deriving DecidableEq

/-- The `attendanceMap` built from an array response: `forEach` of `set`
after destructuring off `empId` (mongodb-service.ts lines 503-510). -/
def buildAttendanceMap (records : List AttendanceAPIRecord) : AttMap :=
  records.foldl (fun m r => assocSet m r.empId r.record) []

/-- fetchClusterAttendance (mongodb-service.ts lines 484-542): same
stale-while-revalidate skeleton as fetchEmployeesByCluster, with the cached
cluster attendance map as the fast path and the array response folded into a
map (the object-shaped response alternative builds the same map). -/
def fetchClusterAttendance (cached : AttMap)
    (response : Except JSError (List AttendanceAPIRecord)) (forceRefresh : Bool) :
    SWRResult AttMap :=
  let fetchFresh : SWRResult AttMap :=
    match response with
    | .ok records =>
      let attendanceMap := buildAttendanceMap records
      { result := .ok attendanceMap, onFreshPayload := some attendanceMap
        cacheWritten := some attendanceMap }
    | .error e =>
      { result := .error e, onFreshPayload := none, cacheWritten := none }
  if 0 < cached.length ∧ forceRefresh = false then
    { fetchFresh with result := .ok cached }
  else
    fetchFresh

/-- C1: for every scope, with non-empty cached data and no forced refresh, a
failing network fetch still lets the coordinator call resolve with exactly
the cached data, `onFresh` is never invoked and nothing is written to the
cache; with no cached data, the network rejection propagates to the caller —
the call never resolves with an empty result.  Shown for
fetchEmployeesByCluster and fetchClusterAttendance (the cited cluster scopes)
and for fetchAllEmployees (the `'all'` scope). -/
theorem C1_stale_fallback (cachedE cachedAll : List Employee) (cachedA : AttMap)
    (eE eA eAll : JSError) :
    (0 < cachedE.length →
      fetchEmployeesByCluster cachedE (.error eE) false
        = { result := .ok cachedE, onFreshPayload := none, cacheWritten := none }) ∧
    (cachedE = [] →
      fetchEmployeesByCluster cachedE (.error eE) false
        = { result := .error eE, onFreshPayload := none, cacheWritten := none }) ∧
    (0 < cachedA.length →
      fetchClusterAttendance cachedA (.error eA) false
        = { result := .ok cachedA, onFreshPayload := none, cacheWritten := none }) ∧
    (cachedA = [] →
      fetchClusterAttendance cachedA (.error eA) false
        = { result := .error eA, onFreshPayload := none, cacheWritten := none }) ∧
    (0 < cachedAll.length →
      fetchAllEmployees cachedAll (.error eAll) false
        = { result := .ok cachedAll, onFreshPayload := none, cacheWrites := [] }) ∧
    (cachedAll = [] →
      fetchAllEmployees cachedAll (.error eAll) false
        = { result := .error eAll, onFreshPayload := none, cacheWrites := [] }) := by
  refine ⟨?_, ?_, ?_, ?_, ?_, ?_⟩
  · intro h
    simp [fetchEmployeesByCluster, h]
  · intro h
    subst h
    simp [fetchEmployeesByCluster]
  · intro h
    simp [fetchClusterAttendance, h]
  · intro h
    subst h
    simp [fetchClusterAttendance]
  · intro h
    simp [fetchAllEmployees, h]
  · intro h
    subst h
    simp [fetchAllEmployees]

/-- A concrete employee for witnesses, with everything but the id fixed. -/
def mkEmployee (id : String) : Employee :=
  { empId := id, name := "N", cluster := "Y", eligibility := "Self"
    eligibleChildrenCount := 0, kids := [] }

/-- C1 witness: the spec's stale-data scenario — five cached entities for
partition `"Y"` and a failing network fetch: the call resolves with the five
cached entities and `onFresh` is never invoked; with an empty cache the same
failure rejects. -/
theorem C1_stale_fallback_witness :
    (0 < (["E1", "E2", "E3", "E4", "E5"].map mkEmployee).length →
      fetchEmployeesByCluster (["E1", "E2", "E3", "E4", "E5"].map mkEmployee)
          (.error ⟨none, some 503, none⟩) false
        = { result := .ok (["E1", "E2", "E3", "E4", "E5"].map mkEmployee)
            onFreshPayload := none, cacheWritten := none }) ∧
    (([] : List Employee) = [] →
      fetchEmployeesByCluster [] (.error ⟨none, some 503, none⟩) false
        = { result := .error ⟨none, some 503, none⟩
            onFreshPayload := none, cacheWritten := none }) :=
  ⟨(C1_stale_fallback (["E1", "E2", "E3", "E4", "E5"].map mkEmployee) []
      [] ⟨none, some 503, none⟩ ⟨none, none, none⟩ ⟨none, none, none⟩).1,
   (C1_stale_fallback [] [] [] ⟨none, some 503, none⟩
      ⟨none, none, none⟩ ⟨none, none, none⟩).2.1⟩

/-- C8: with `forceRefresh = true` the coordinator's resolved value is
independent of whatever the cache holds and is always the network outcome: on
success the fetched data is both the resolved value and the `onFresh`
payload, and on failure the call rejects with the network error.  Shown for
fetchAllEmployees and fetchClusterAttendance, the cited symbols. -/
theorem C8_force_refresh_bypasses_cache (cached cached2 : List Employee)
    (cachedA cachedA2 : AttMap) (net : Except JSError (List Employee))
    (response : Except JSError (List AttendanceAPIRecord))
    (v : List Employee) (rs : List AttendanceAPIRecord) (e : JSError) :
    (fetchAllEmployees cached net true = fetchAllEmployees cached2 net true) ∧
    (net = .ok v →
      (fetchAllEmployees cached net true).result = .ok v ∧
      (fetchAllEmployees cached net true).onFreshPayload = some v) ∧
    (net = .error e →
      (fetchAllEmployees cached net true).result = .error e ∧
      (fetchAllEmployees cached net true).onFreshPayload = none) ∧
    (fetchClusterAttendance cachedA response true
      = fetchClusterAttendance cachedA2 response true) ∧
    (response = .ok rs →
      (fetchClusterAttendance cachedA response true).result
          = .ok (buildAttendanceMap rs) ∧
      (fetchClusterAttendance cachedA response true).onFreshPayload
          = some (buildAttendanceMap rs)) ∧
    (response = .error e →
      (fetchClusterAttendance cachedA response true).result = .error e ∧
      (fetchClusterAttendance cachedA response true).onFreshPayload = none) := by
  refine ⟨?_, ?_, ?_, ?_, ?_, ?_⟩
  · simp [fetchAllEmployees]
  · intro h
    subst h
    simp [fetchAllEmployees]
  · intro h
    subst h
    simp [fetchAllEmployees]
  · simp [fetchClusterAttendance]
  · intro h
    subst h
    simp [fetchClusterAttendance]
  · intro h
    subst h
    simp [fetchClusterAttendance]

/-- C8 witness: forcing a refresh with a populated cache and a successful
two-employee network response resolves with the network result and passes it
to `onFresh`; the same call rejects with the network error when the fetch
fails. -/
theorem C8_force_refresh_bypasses_cache_witness :
    ((Except.ok ([mkEmployee "A", mkEmployee "B"]) :
        Except JSError (List Employee)) = .ok [mkEmployee "A", mkEmployee "B"] →
      (fetchAllEmployees [mkEmployee "C"]
          (.ok [mkEmployee "A", mkEmployee "B"]) true).result
        = .ok [mkEmployee "A", mkEmployee "B"] ∧
      (fetchAllEmployees [mkEmployee "C"]
          (.ok [mkEmployee "A", mkEmployee "B"]) true).onFreshPayload
        = some [mkEmployee "A", mkEmployee "B"]) ∧
    ((Except.error ⟨none, some 503, none⟩ :
        Except JSError (List Employee)) = .error ⟨none, some 503, none⟩ →
      (fetchAllEmployees [mkEmployee "C"]
          (.error ⟨none, some 503, none⟩) true).result
        = .error ⟨none, some 503, none⟩ ∧
      (fetchAllEmployees [mkEmployee "C"]
          (.error ⟨none, some 503, none⟩) true).onFreshPayload = none) :=
  ⟨(C8_force_refresh_bypasses_cache [mkEmployee "C"] []
      [] [] (.ok [mkEmployee "A", mkEmployee "B"]) (.error ⟨none, none, none⟩)
      [mkEmployee "A", mkEmployee "B"] [] ⟨none, some 503, none⟩).2.1,
   (C8_force_refresh_bypasses_cache [mkEmployee "C"] []
      [] [] (.error ⟨none, some 503, none⟩) (.error ⟨none, none, none⟩)
      [] [] ⟨none, some 503, none⟩).2.2.1⟩

/-- JavaScript falsiness of a possibly-`undefined` string: `!s` is true for
`undefined` and for the empty string. -/
def jsFalsyStr (s : Option String) : Bool :=
  match s with
  | none => true
  | some v => v = ""

/-- The `attendanceUpdated` push handler registered per cluster,
handleAttendanceUpdate (mongodb-service.ts lines 654-679): if the event
carries no cluster (broadcast) or names this handler's cluster, trigger one
forced `fetchClusterAttendance(cluster, true)` and, when that refresh
resolves, invoke the `onAttendance` callback of every currently registered
listener with the same refreshed map; otherwise do nothing.  The result pairs
the number of forced refreshes triggered with the list of callback
invocations (listener, delivered map). -/
def handleAttendanceUpdate (myCluster : String) (eventCluster : Option String)
    (listeners : List Nat) (refresh : Except JSError AttMap) :
    Nat × List (Nat × AttMap) :=
  if jsFalsyStr eventCluster = true ∨ eventCluster = some myCluster then
    match refresh with
    | .ok attendanceMap => (1, listeners.map (fun l => (l, attendanceMap)))
    | .error _ => (1, [])
  else
    (0, [])

/-- C5: a push event naming this handler's key, or carrying no cluster at all
(the broadcast case), triggers exactly one forced refresh and then exactly
one callback invocation per registered listener pair, in registration order,
each receiving the same refreshed map; an event naming a different key
triggers no refresh and no invocation. -/
theorem C5_fanout_on_push (myCluster c : String) (eventCluster : Option String)
    (listeners : List Nat) (m : AttMap) (refresh : Except JSError AttMap) :
    (refresh = .ok m → (eventCluster = none ∨ eventCluster = some myCluster) →
      handleAttendanceUpdate myCluster eventCluster listeners refresh
        = (1, listeners.map (fun l => (l, m)))) ∧
    (refresh = .ok m → (eventCluster = none ∨ eventCluster = some myCluster) →
      (handleAttendanceUpdate myCluster eventCluster listeners refresh).2.length
        = listeners.length) ∧
    (eventCluster = some c → c ≠ myCluster → c ≠ "" →
      handleAttendanceUpdate myCluster eventCluster listeners refresh = (0, [])) := by
  refine ⟨?_, ?_, ?_⟩
  · rintro rfl (rfl | rfl)
    · simp [handleAttendanceUpdate, jsFalsyStr]
    · simp [handleAttendanceUpdate]
  · rintro rfl (rfl | rfl)
    · simp [handleAttendanceUpdate, jsFalsyStr]
    · simp [handleAttendanceUpdate]
  · rintro rfl hne hemp
    have h1 : jsFalsyStr (some c) = false := by
      simp [jsFalsyStr, hemp]
    have h2 : ¬(some c = some myCluster) := by
      simp [hne]
    simp [handleAttendanceUpdate, h1, h2]

/-- A concrete refreshed attendance map delivered by a push-triggered forced
refresh, used by the fan-out witness. -/
def pushRefreshMap : AttMap :=
  [("E1", { employee := true, spouse := false, kid1 := false, kid2 := false
            kid3 := false, markedBy := "u1", markedAt := 9, kidNames := none })]

/-- C5 witness: the spec's fan-out scenario — three subscribers on cluster
`"Y"` and one push event for `"Y"` whose forced refresh resolves with a
one-record map: exactly one refresh and three invocations, each delivering
that same map, while an event for cluster `"Z"` delivers nothing. -/
theorem C5_fanout_on_push_witness :
    ((Except.ok pushRefreshMap : Except JSError AttMap) = .ok pushRefreshMap →
      ((some "Y" : Option String) = none ∨ (some "Y" : Option String) = some "Y") →
      handleAttendanceUpdate "Y" (some "Y") [0, 1, 2] (.ok pushRefreshMap)
        = (1, [0, 1, 2].map (fun l => (l, pushRefreshMap)))) ∧
    ((some "Z" : Option String) = some "Z" → "Z" ≠ "Y" → "Z" ≠ "" →
      handleAttendanceUpdate "Y" (some "Z") [0, 1, 2] (.ok pushRefreshMap)
        = (0, [])) :=
  ⟨(C5_fanout_on_push "Y" "Z" (some "Y") [0, 1, 2] pushRefreshMap
      (.ok pushRefreshMap)).1,
   (C5_fanout_on_push "Y" "Z" (some "Z") [0, 1, 2] pushRefreshMap
      (.ok pushRefreshMap)).2.2⟩

/-- The per-key bookkeeping entry of `activeClusterSubscriptions`
(mongodb-service.ts lines 602-608): the Set of registered listener pairs
(listeners are identified by numbers here, one per `subscribeToCluster` call)
and whether the per-key `attendanceUpdated` handler has been registered
(`handler !== null`). -/
structure SubInfo where
  listeners : List Nat
  handler : Bool
deriving DecidableEq

/-- The observable state of the subscription multiplexer for one key: the
key's map entry (if any), the set of subscriber calls whose local `sock`
variable has been assigned (their socket-init continuation already ran), the
set of subscriber calls whose local `unsubscribed` flag is set, and the
counters of the four channel effects — `subscribeToCluster` emissions (room
joins), `unsubscribeFromCluster` emissions (room leaves), `sock.on`
handler registrations and `sock.off` deregistrations. -/
structure MuxState where
  subInfo : Option SubInfo
  socksReady : List Nat
  unsubscribedSet : List Nat
  joinCount : Nat
  leaveCount : Nat
  handlerRegCount : Nat
  handlerDeregCount : Nat
deriving DecidableEq

/-- The events of one subscription key's lifecycle, identified by subscriber
number `i`: the synchronous body of the i-th `subscribeToCluster` call, the
asynchronous `initializeSocket().then(...)` continuation of that call, and
the invocation of that call's returned unsubscribe function. -/
inductive MuxEvent where
  | sub (i : Nat)
  | resolveInit (i : Nat)
  | unsub (i : Nat)

/-- Adding an element to a JavaScript Set: no-op when present, append
otherwise. -/
def addOnce (l : List Nat) (i : Nat) : List Nat :=
  if i ∈ l then l else l ++ [i]

/-- The multiplexer state before any subscription. -/
def initialMux : MuxState := ⟨none, [], [], 0, 0, 0, 0⟩

/-- One step of the subscription multiplexer, from subscribeToCluster
(mongodb-service.ts lines 613-715).
`sub i`: get or create the key's entry and add the listener to its Set.
`resolveInit i`: the socket-init continuation — return early when that
subscriber already unsubscribed; otherwise assign its local `sock`, and if
the key's entry still exists and has no handler yet, emit the room join and
register the single `attendanceUpdated` handler.
`unsub i`: set the local `unsubscribed` flag, and if the key's entry exists,
remove this listener; when the Set becomes empty, emit the room leave and
deregister the handler — but only if this subscriber's own local `sock` is
non-null and a handler was registered — and delete the key's entry either
way. -/
def muxStep (s : MuxState) (e : MuxEvent) : MuxState :=
  match e with
  | .sub i =>
    let info := s.subInfo.getD { listeners := [], handler := false }
    { s with subInfo := some { info with listeners := addOnce info.listeners i } }
  | .resolveInit i =>
    if i ∈ s.unsubscribedSet then s
    else
      let s1 := { s with socksReady := addOnce s.socksReady i }
      match s1.subInfo with
      | none => s1
      | some info =>
        if info.handler then s1
        else
          { s1 with subInfo := some { info with handler := true }
                    joinCount := s1.joinCount + 1
                    handlerRegCount := s1.handlerRegCount + 1 }
  | .unsub i =>
    let s1 := { s with unsubscribedSet := addOnce s.unsubscribedSet i }
    match s1.subInfo with
    | none => s1
    | some info =>
      let remaining := info.listeners.erase i
      if remaining.isEmpty then
        if i ∈ s1.socksReady ∧ info.handler = true then
          { s1 with subInfo := none
                    leaveCount := s1.leaveCount + 1
                    handlerDeregCount := s1.handlerDeregCount + 1 }
        else
          { s1 with subInfo := none }
      else
        { s1 with subInfo := some { info with listeners := remaining } }

/-- Run the multiplexer on a list of events from the initial state. -/
def muxRun (events : List MuxEvent) : MuxState :=
  events.foldl muxStep initialMux

/-- C2 counterexample: two subscribe calls followed by their two unsubscribe
calls, with the second subscriber's socket-init continuation arriving only
after its unsubscribe (a legal event-loop interleaving: subscriber 1
subscribes and both subscribers unsubscribe within one task turn).  The room
is joined once but never left, and the handler is registered once but never
deregistered — the last unsubscriber's own local `sock` is still null, so the
cleanup branch is skipped even though the key's state is deleted.  The
physical room membership outlives all logical listeners, refuting the claim
that the room is left exactly once. -/
theorem C2_counterexample :
    (muxRun [.sub 0, .resolveInit 0, .sub 1, .unsub 0, .unsub 1, .resolveInit 1]).joinCount = 1 ∧
    (muxRun [.sub 0, .resolveInit 0, .sub 1, .unsub 0, .unsub 1, .resolveInit 1]).leaveCount = 0 ∧
    (muxRun [.sub 0, .resolveInit 0, .sub 1, .unsub 0, .unsub 1, .resolveInit 1]).handlerRegCount = 1 ∧
    (muxRun [.sub 0, .resolveInit 0, .sub 1, .unsub 0, .unsub 1, .resolveInit 1]).handlerDeregCount = 0 ∧
    (muxRun [.sub 0, .resolveInit 0, .sub 1, .unsub 0, .unsub 1, .resolveInit 1]).subInfo = none := by
  decide

theorem mem_addOnce (l : List Nat) (x y : Nat) :
    y ∈ addOnce l x ↔ y ∈ l ∨ y = x := by
  unfold addOnce
  by_cases h : x ∈ l
  · rw [if_pos h]
    constructor
    · exact Or.inl
    · rintro (hy | rfl)
      · exact hy
      · exact h
  · rw [if_neg h]
    simp [List.mem_append]

theorem mem_foldl_addOnce (js : List Nat) :
    ∀ (s : List Nat) (y : Nat), (y ∈ s ∨ y ∈ js) → y ∈ js.foldl addOnce s := by
  induction js with
  | nil =>
    intro s y h
    rcases h with hs | hj
    · exact hs
    · exact absurd hj (List.not_mem_nil y)
  | cons x rest ih =>
    intro s y h
    simp only [List.foldl_cons]
    apply ih
    rcases h with hs | hj
    · exact Or.inl ((mem_addOnce s x y).mpr (Or.inl hs))
    · rcases List.mem_cons.mp hj with hxy | hr
      · exact Or.inl ((mem_addOnce s x y).mpr (Or.inr hxy))
      · exact Or.inr hr

theorem subPhaseAux (ids : List Nat) :
    ∀ (L : List Nat), (L ++ ids).Nodup → ∀ (s u : List Nat) (j lv r d : Nat),
      (ids.map MuxEvent.sub).foldl muxStep ⟨some ⟨L, false⟩, s, u, j, lv, r, d⟩
        = ⟨some ⟨L ++ ids, false⟩, s, u, j, lv, r, d⟩ := by
  induction ids with
  | nil =>
    intro L _ s u j lv r d
    simp
  | cons i rest ih =>
    intro L h s u j lv r d
    have hiL : i ∉ L := by
      rw [List.nodup_append] at h
      intro hmem
      exact h.2.2 hmem (List.mem_cons_self i rest)
    simp only [List.map_cons, List.foldl_cons]
    have hstep : muxStep ⟨some ⟨L, false⟩, s, u, j, lv, r, d⟩ (.sub i)
        = ⟨some ⟨L ++ [i], false⟩, s, u, j, lv, r, d⟩ := by
      simp [muxStep, addOnce, hiL]
    rw [hstep]
    rw [ih (L ++ [i]) (by rw [List.append_assoc]; exact h) s u j lv r d]
    rw [List.append_assoc, List.singleton_append]

theorem subPhase (ids : List Nat) (hnd : ids.Nodup) (hne : ids ≠ []) :
    (ids.map MuxEvent.sub).foldl muxStep initialMux
      = ⟨some ⟨ids, false⟩, [], [], 0, 0, 0, 0⟩ := by
  match ids, hne with
  | i :: rest, _ =>
    simp only [List.map_cons, List.foldl_cons]
    have hstep : muxStep initialMux (.sub i) = ⟨some ⟨[i], false⟩, [], [], 0, 0, 0, 0⟩ := by
      simp [muxStep, initialMux, addOnce]
    rw [hstep]
    exact subPhaseAux rest [i] hnd [] [] 0 0 0 0

theorem resolveKeeps (js : List Nat) :
    ∀ (L socks : List Nat) (j lv r d : Nat),
      (js.map MuxEvent.resolveInit).foldl muxStep ⟨some ⟨L, true⟩, socks, [], j, lv, r, d⟩
        = ⟨some ⟨L, true⟩, js.foldl addOnce socks, [], j, lv, r, d⟩ := by
  induction js with
  | nil => intro L socks j lv r d; rfl
  | cons x rest ih =>
    intro L socks j lv r d
    simp only [List.map_cons, List.foldl_cons]
    have hstep : muxStep ⟨some ⟨L, true⟩, socks, [], j, lv, r, d⟩ (.resolveInit x)
        = ⟨some ⟨L, true⟩, addOnce socks x, [], j, lv, r, d⟩ := by
      simp [muxStep]
    rw [hstep]
    exact ih L (addOnce socks x) j lv r d

theorem resolvePhase (i : Nat) (rest : List Nat) (L : List Nat) :
    ((i :: rest).map MuxEvent.resolveInit).foldl muxStep ⟨some ⟨L, false⟩, [], [], 0, 0, 0, 0⟩
      = ⟨some ⟨L, true⟩, rest.foldl addOnce [i], [], 1, 0, 1, 0⟩ := by
  simp only [List.map_cons, List.foldl_cons]
  have hstep : muxStep ⟨some ⟨L, false⟩, [], [], 0, 0, 0, 0⟩ (.resolveInit i)
      = ⟨some ⟨L, true⟩, [i], [], 1, 0, 1, 0⟩ := by
    simp [muxStep, addOnce]
  rw [hstep]
  exact resolveKeeps rest L [i] 1 0 1 0

theorem unsubPhase (u : List Nat) :
    ∀ (L : List Nat), u.Perm L → L.Nodup → L ≠ [] →
      ∀ (socks U : List Nat) (j lv r d : Nat), (∀ x ∈ L, x ∈ socks) →
        ∃ U2, (u.map MuxEvent.unsub).foldl muxStep ⟨some ⟨L, true⟩, socks, U, j, lv, r, d⟩
          = ⟨none, socks, U2, j, lv + 1, r, d + 1⟩ := by
  induction u with
  | nil =>
    intro L hperm _ hne socks U j lv r d _
    exact absurd (hperm.symm.eq_nil) hne
  | cons x rest ih =>
    intro L hperm hnd hne socks U j lv r d hsock
    have hxL : x ∈ L := hperm.subset (List.mem_cons_self x rest)
    have hrest : rest.Perm (L.erase x) := by
      have h1 : L.Perm (x :: L.erase x) := List.perm_cons_erase hxL
      exact (List.perm_cons x).mp (hperm.trans h1)
    simp only [List.map_cons, List.foldl_cons]
    by_cases hLx : L.erase x = []
    · have hrestnil : rest = [] := (hLx ▸ hrest).eq_nil
      subst hrestnil
      have hstep : muxStep ⟨some ⟨L, true⟩, socks, U, j, lv, r, d⟩ (.unsub x)
          = ⟨none, socks, addOnce U x, j, lv + 1, r, d + 1⟩ := by
        simp [muxStep, hLx, hsock x hxL]
      rw [hstep]
      exact ⟨addOnce U x, rfl⟩
    · have hempty : (L.erase x).isEmpty = false := by
        cases hEq : L.erase x with
        | nil => exact absurd hEq hLx
        | cons y ys => rfl
      have hstep : muxStep ⟨some ⟨L, true⟩, socks, U, j, lv, r, d⟩ (.unsub x)
          = ⟨some ⟨L.erase x, true⟩, socks, addOnce U x, j, lv, r, d⟩ := by
        simp [muxStep, hempty]
      rw [hstep]
      exact ih (L.erase x) hrest (hnd.erase x) hLx socks (addOnce U x) j lv r d
        (fun y hy => hsock y (List.mem_of_mem_erase hy))

/-- C2 amended: when every subscriber's socket-init continuation has run
before the first unsubscribe, N subscribe calls (N ≥ 1, distinct subscriber
identities) followed by their N unsubscribe functions in any order cause the
room to be joined exactly once and left exactly once, the push handler to be
registered exactly once and deregistered exactly once, and the key's
subscription state to be deleted.  Without that scheduling assumption the
exactly-once teardown fails (see the counterexample): if the last
unsubscriber's continuation has not yet run, the room is never left and the
handler never deregistered, although the key's state is still deleted. -/
theorem C2_refcounted_teardown (ids unsubOrder : List Nat)
    (hnd : ids.Nodup) (hne : ids ≠ []) (hperm : unsubOrder.Perm ids) :
    (muxRun (ids.map MuxEvent.sub ++ ids.map MuxEvent.resolveInit
        ++ unsubOrder.map MuxEvent.unsub)).joinCount = 1 ∧
    (muxRun (ids.map MuxEvent.sub ++ ids.map MuxEvent.resolveInit
        ++ unsubOrder.map MuxEvent.unsub)).leaveCount = 1 ∧
    (muxRun (ids.map MuxEvent.sub ++ ids.map MuxEvent.resolveInit
        ++ unsubOrder.map MuxEvent.unsub)).handlerRegCount = 1 ∧
    (muxRun (ids.map MuxEvent.sub ++ ids.map MuxEvent.resolveInit
        ++ unsubOrder.map MuxEvent.unsub)).handlerDeregCount = 1 ∧
    (muxRun (ids.map MuxEvent.sub ++ ids.map MuxEvent.resolveInit
        ++ unsubOrder.map MuxEvent.unsub)).subInfo = none := by
  unfold muxRun
  rw [List.foldl_append, List.foldl_append]
  rw [subPhase ids hnd hne]
  match ids, hnd, hne, hperm with
  | i :: rest, hnd, _, hperm =>
    rw [resolvePhase i rest (i :: rest)]
    have hsock : ∀ x ∈ i :: rest, x ∈ rest.foldl addOnce [i] := by
      intro x hx
      apply mem_foldl_addOnce
      rcases List.mem_cons.mp hx with rfl | hr
      · exact Or.inl (List.mem_singleton.mpr rfl)
      · exact Or.inr hr
    obtain ⟨U2, hfinal⟩ := unsubPhase unsubOrder (i :: rest) hperm hnd
      (List.cons_ne_nil i rest) (rest.foldl addOnce [i]) [] 1 0 1 0 hsock
    rw [hfinal]
    exact ⟨rfl, rfl, rfl, rfl, rfl⟩

/-- C2 witness: two subscribers whose socket continuations both run before
the unsubscribes, unsubscribing in reverse order: joined once, left once,
handler registered and deregistered once, state deleted. -/
theorem C2_refcounted_teardown_witness :
    (muxRun ([0, 1].map MuxEvent.sub ++ [0, 1].map MuxEvent.resolveInit
        ++ [1, 0].map MuxEvent.unsub)).joinCount = 1 ∧
    (muxRun ([0, 1].map MuxEvent.sub ++ [0, 1].map MuxEvent.resolveInit
        ++ [1, 0].map MuxEvent.unsub)).leaveCount = 1 ∧
    (muxRun ([0, 1].map MuxEvent.sub ++ [0, 1].map MuxEvent.resolveInit
        ++ [1, 0].map MuxEvent.unsub)).handlerRegCount = 1 ∧
    (muxRun ([0, 1].map MuxEvent.sub ++ [0, 1].map MuxEvent.resolveInit
        ++ [1, 0].map MuxEvent.unsub)).handlerDeregCount = 1 ∧
    (muxRun ([0, 1].map MuxEvent.sub ++ [0, 1].map MuxEvent.resolveInit
        ++ [1, 0].map MuxEvent.unsub)).subInfo = none :=
  C2_refcounted_teardown [0, 1] [1, 0] (by decide) (by decide) (by decide)
